import Mathlib

namespace Substack

/-! Shallow embedding of src/substack_scraper.py.  Strings are manipulated
through character lists using structural recursion, so that concrete runs
reduce inside the kernel.  External libraries (requests, hashlib, mimetypes,
html2text, markdown, BeautifulSoup) enter as oracle fields of Env; the
filesystem and the network request log are threaded explicitly through every
function that touches them.  Paths are recorded with forward slash joints,
the way pathlib renders them on POSIX; the os.sep value used by
os.path.relpath is an explicit parameter of the embedding. -/

/-- Python str.startswith, on character lists. -/
def startsList : List Char → List Char → Bool
  | [], _ => true
  | _ :: _, [] => false
  | a :: as, b :: bs => a == b && startsList as bs

/-- Occurrence test modelling the Python in operator on strings. -/
def subIn : List Char → List Char → Bool
  | n, [] => startsList n []
  | n, c :: t => startsList n (c :: t) || subIn n t

/-- Python substring containment: pyIn sub s models sub in s. -/
def pyIn (sub s : String) : Bool :=
  subIn sub.toList s.toList

/-- Leftmost occurrence of sep: the part before it and the part after it. -/
def splitFirst (sep : List Char) : List Char → Option (List Char × List Char)
  | [] => none
  | c :: t =>
    if startsList sep (c :: t) then some ([], (c :: t).drop sep.length)
    else
      match splitFirst sep t with
      | none => none
      | some p => some (c :: p.1, p.2)

/-- Fuel recursion computing all split parts; fuel length + 1 always suffices
for a nonempty separator since every step consumes at least one character. -/
def splitOnFuel (sep : List Char) : Nat → List Char → List (List Char)
  | 0, l => [l]
  | Nat.succ fuel, l =>
    match splitFirst sep l with
    | none => [l]
    | some p => p.1 :: splitOnFuel sep fuel p.2

/-- Python str.split with an explicit nonempty separator. -/
def pySplit (s sep : String) : List String :=
  if sep.toList.isEmpty then [s]
  else (splitOnFuel sep.toList (s.toList.length + 1) s.toList).map (fun l => String.mk l)

/-- Joins parts with a separator, the inverse used by replace and relpath. -/
def joinSep (sep : String) : List String → String
  | [] => ""
  | [a] => a
  | a :: b :: rest => a ++ sep ++ joinSep sep (b :: rest)

/-- Python str.replace for a nonempty pattern, via split and join. -/
def pyReplace (s old new : String) : String :=
  joinSep new (pySplit s old)

/-- Drops characters satisfying f from both ends of a list. -/
def stripBoth (f : Char → Bool) (l : List Char) : List Char :=
  ((l.dropWhile f).reverse.dropWhile f).reverse

/-- Whitespace test covering the characters Python str.strip removes in the
markup this program meets. -/
def isSpaceChar (c : Char) : Bool :=
  c == ' ' || c == '\t' || c == '\n' || c == '\r'

/-- Python str.strip with no argument. -/
def pyStripWs (s : String) : String :=
  String.mk (stripBoth isSpaceChar s.toList)

/-- Python str.strip with an explicit character set argument. -/
def pyStripChars (cs : List Char) (s : String) : String :=
  String.mk (stripBoth (fun c => cs.contains c) s.toList)

/-- Python len on a string. -/
def pyLen (s : String) : Nat :=
  s.toList.length

/-- Python str.isdigit: nonempty and all digits. -/
def pyIsDigit (s : String) : Bool :=
  !(s.toList.isEmpty) && s.toList.all (fun c => c.isDigit)

def isHexDigitChar (c : Char) : Bool :=
  c.isDigit || ('a' ≤ c && c ≤ 'f') || ('A' ≤ c && c ≤ 'F')

def hexVal (c : Char) : Nat :=
  if c.isDigit then c.toNat - 48
  else if 'a' ≤ c && c ≤ 'f' then c.toNat - 87
  else c.toNat - 55

/-- Percent decoding at byte granularity, modelling urllib.parse.unquote on
the escape sequences appearing in CDN image URLs.  Every step consumes at
least one character, so fuel equal to the length suffices. -/
def unquoteFuel : Nat → List Char → List Char
  | 0, l => l
  | Nat.succ f, l =>
    match l with
    | [] => []
    | '%' :: a :: b :: rest2 =>
      if isHexDigitChar a && isHexDigitChar b then
        Char.ofNat (16 * hexVal a + hexVal b) :: unquoteFuel f rest2
      else '%' :: unquoteFuel f (a :: b :: rest2)
    | c :: rest => c :: unquoteFuel f rest

def pyUnquote (s : String) : String :=
  String.mk (unquoteFuel s.toList.length s.toList)

/-! Module constants of substack_scraper.py. -/

def BASE_MD_DIR : String := "substack_md_files"
def BASE_HTML_DIR : String := "substack_html_pages"
def BASE_IMAGE_DIR : String := "substack_images"
def JSON_DATA_DIR : String := "data"

/-! Filesystem model: an association list from path to content; a write
prepends, a lookup takes the most recent entry. -/

abbrev FS := List (String × String)

def fsExists (fs : FS) (p : String) : Bool :=
  fs.any (fun e => decide (e.1 = p))

def fsWrite (fs : FS) (p c : String) : FS :=
  (p, c) :: fs

def fsRead (fs : FS) (p : String) : Option String :=
  (fs.find? (fun e => decide (e.1 = p))).map (fun e => e.2)

/-- Network requests issued by the program, in order. -/
inductive NetEvent where
  | postFetch (url : String)
  | headProbe (url : String)
  | imageGet (url : String)
deriving DecidableEq

/-- A markdown string decomposed along the matches of the image regex
pattern used by process_markdown_images: text chunks alternate with matched
chunks, a matched chunk holding the full matched text, parentheses included,
so that rendering the chunks restores the string re.sub scans. -/
inductive MdChunk where
  | text (s : String)
  | image (matched : String)
deriving DecidableEq

abbrev MdDoc := List MdChunk

def renderDoc : MdDoc → String
  | [] => ""
  | MdChunk.text s :: r => s ++ renderDoc r
  | MdChunk.image m :: r => m ++ renderDoc r

/-- Parsed document handle, modelling the BeautifulSoup selector results
extract_post_data and the paywall check consult: each field holds the text
of the selected element when it is present. -/
structure Soup where
  titleText : Option String
  subtitleText : Option String
  dateText : Option String
  likeText : Option String
  availableContent : Option String
  paywallTitle : Bool
deriving DecidableEq

/-- External collaborators: fetch is the abstract get_url_soup capability
(error models a raised exception, ok none the paywall skip sentinel);
h2md models html2text handle, md2html the markdown renderer, headCT the
content type answered by requests.head, md5hex the hashlib md5 hexdigest,
guessExt mimetypes.guess_extension, getImg the requests.get of an image
(error a raised exception, otherwise status code and body), sep os.sep. -/
structure Env where
  fetch : String → Except String (Option Soup)
  h2md : String → MdDoc
  md2html : String → String
  headCT : String → String
  md5hex : String → String
  guessExt : String → Option String
  getImg : String → Except Unit (Nat × String)
  sep : String

/-! URL helpers of the source module. -/

/-- is_post_url from the source: a post URL contains /p/. -/
def is_post_url (url : String) : Bool :=
  pyIn "/p/" url

/-- Host part of urlparse: the segment after the first :// up to the next
slash. -/
def netloc (url : String) : String :=
  (pySplit (((pySplit url "://").drop 1).headD "") "/").headD ""

/-- Scheme part of urlparse for the URLs this program receives. -/
def urlscheme (url : String) : String :=
  (pySplit url "://").headD ""

/-- get_publication_url from the source. -/
def get_publication_url (url : String) : String :=
  urlscheme url ++ "://" ++ netloc url ++ "/"

/-- extract_main_part from the source; none models the IndexError Python
raises when the www host has no second dot separated label. -/
def extract_main_part (url : String) : Option String :=
  let parts := pySplit (netloc url) "."
  if parts.headD "" = "www" then parts[1]? else parts[0]?

/-- get_post_slug from the source: the first nonempty capture of the
regex search for /p/ followed by characters other than a slash. -/
def get_post_slug (url : String) : String :=
  match ((pySplit url "/p/").drop 1).map (fun r => (pySplit r "/").headD "")
      |>.filter (fun g => !(decide (g = ""))) with
  | g :: _ => g
  | [] => "unknown_post"

/-! Image localization: sanitize_filename, download_image,
process_markdown_images. -/

/-- Character class removed by the re.sub inside sanitize_filename. -/
def illegalChars : List Char := ['<', '>', ':', '"', '/', '\\', '|', '?', '*']

/-- First half of sanitize_filename: the final decoded path segment with
illegal characters removed.  For a CDN URL the segment comes from the part
after the first https:// occurrence, percent decoded. -/
def sanitize_derived_name (url : String) : String :=
  let filename :=
    if pyIn "substackcdn.com" url then
      let original_url := pyUnquote (((pySplit url "https://").drop 1).headD "")
      (pySplit original_url "/").getLastD ""
    else (pySplit url "/").getLastD ""
  String.mk (filename.toList.filter (fun c => !(illegalChars.contains c)))

/-- Extension chosen in the hash branch of sanitize_filename: the guess of
mimetypes on the probed content type, with .jpg covering the falsy cases of
the Python or. -/
def sanitize_ext (env : Env) (url : String) : String :=
  match env.guessExt (env.headCT url) with
  | some e => if e = "" then ".jpg" else e
  | none => ".jpg"

/-- sanitize_filename from the source.  The hash branch performs the
requests.head probe, recorded as a network event. -/
def sanitize_filename (env : Env) (url : String) (ev : List NetEvent) :
    String × List NetEvent :=
  let filename := sanitize_derived_name url
  if 100 < pyLen filename ∨ filename = "" then
    (env.md5hex url ++ sanitize_ext env url, ev ++ [NetEvent.headProbe url])
  else (filename, ev)

/-- download_image from the source: a requests.get, a write on status 200,
none on any other status or on a raised exception. -/
def download_image (env : Env) (url save_path : String) (fs : FS)
    (ev : List NetEvent) : Option String × FS × List NetEvent :=
  let ev2 := ev ++ [NetEvent.imageGet url]
  match env.getImg url with
  | Except.error _ => (none, fs, ev2)
  | Except.ok r =>
    if r.1 = 200 then (some save_path, fsWrite fs save_path r.2, ev2)
    else (none, fs, ev2)

/-- The replace_image closure inside process_markdown_images: strip the
parentheses off the matched text, sanitize the filename, download unless the
target file exists, and return the matched text replaced by the relative
path from the markdown save directory. -/
def os_relpath (sep path start : String) : String :=
  let normComponents := fun (p : String) =>
    (pySplit p "/").filter (fun c => !(decide (c = ".")) && !(decide (c = "")))
  let p := normComponents path
  let s := normComponents start
  let k := (List.zip p s).takeWhile (fun e => decide (e.1 = e.2)) |>.length
  let res := List.replicate (s.length - k) ".." ++ p.drop k
  if res.isEmpty then "." else joinSep sep res

def replace_image (env : Env) (author post_slug matched : String) (fs : FS)
    (ev : List NetEvent) : String × FS × List NetEvent :=
  let url := pyStripChars ['(', ')'] matched
  let sf := sanitize_filename env url ev
  let save_path := BASE_IMAGE_DIR ++ "/" ++ author ++ "/" ++ post_slug ++ "/" ++ sf.1
  let step :=
    if fsExists fs save_path then (fs, sf.2)
    else
      let d := download_image env url save_path fs sf.2
      (d.2.1, d.2.2)
  let rel_path := os_relpath env.sep save_path (BASE_MD_DIR ++ "/" ++ author)
  ("(" ++ rel_path ++ ")", step.1, step.2)

/-- process_markdown_images from the source: the re.sub traversal, mapping
every matched chunk through replace_image from left to right. -/
def process_markdown_images (env : Env) (doc : MdDoc) (author post_slug : String)
    (fs : FS) (ev : List NetEvent) : MdDoc × FS × List NetEvent :=
  match doc with
  | [] => ([], fs, ev)
  | MdChunk.text s :: rest =>
    let r := process_markdown_images env rest author post_slug fs ev
    (MdChunk.text s :: r.1, r.2)
  | MdChunk.image m :: rest =>
    let h := replace_image env author post_slug m fs ev
    let r := process_markdown_images env rest author post_slug h.2.1 h.2.2
    (MdChunk.text h.1 :: r.1, r.2)

/-! Persistence: save_to_file, save_to_html_file, the ledger merge. -/

/-- save_to_file from the source: a no op with a logged notice when the
destination exists, a write otherwise. -/
def save_to_file (fs : FS) (filepath content : String) : FS :=
  if fsExists fs filepath then fs
  else fsWrite fs filepath content

/-- Directory part of a path, modelling os.path.dirname. -/
def dirnameStr (p : String) : String :=
  joinSep "/" ((pySplit p "/").dropLast)

/-- The f string template written by save_to_html_file, verbatim. -/
def html_page_template (css_path content : String) : String :=
  "\n" ++
  "            <!DOCTYPE html>\n" ++
  "            <html lang=\"en\">\n" ++
  "            <head>\n" ++
  "                <meta charset=\"UTF-8\">\n" ++
  "                <meta name=\"viewport\" content=\"width=device-width, initial-scale=1.0\">\n" ++
  "                <title>Markdown Content</title>\n" ++
  "                <link rel=\"stylesheet\" href=\"" ++ css_path ++ "\">\n" ++
  "            </head>\n" ++
  "            <body>\n" ++
  "                <main class=\"markdown-content\">\n" ++
  "                " ++ content ++ "\n" ++
  "                </main>\n" ++
  "            </body>\n" ++
  "            </html>\n" ++
  "        "

/-- save_to_html_file from the source: computes the stylesheet path relative
to the directory of the target, normalizes its separators to forward
slashes, and writes the wrapped document unconditionally. -/
def save_to_html_file (sep : String) (fs : FS) (filepath content : String) : FS :=
  let html_dir := dirnameStr filepath
  let css_path := pyReplace (os_relpath sep "./assets/css/essay-styles.css" html_dir) "\\" "/"
  fsWrite fs filepath (html_page_template css_path content)

/-- One ledger record, the dict appended by scrape_posts. -/
structure Entry where
  title : String
  subtitle : String
  like_count : String
  date : String
  file_link : String
  html_link : String
deriving DecidableEq

/-- Target file of save_essays_data_to_json for a writer. -/
def ledger_path (writer_name : String) : String :=
  JSON_DATA_DIR ++ "/" ++ writer_name ++ ".json"

/-- The merge performed by save_essays_data_to_json: when the file exists
with existing_data, the batch entries absent from existing_data are appended
after it; otherwise the batch is written as given. -/
def merge_essays_data (existing : Option (List Entry)) (essays_data : List Entry) :
    List Entry :=
  match existing with
  | some existing_data =>
    existing_data ++ essays_data.filter (fun d => decide (d ∉ existing_data))
  | none => essays_data

/-- save_essays_data_to_json from the source: the path written and the
merged list serialized there. -/
def save_essays_data_to_json (writer_name : String)
    (existing : Option (List Entry)) (essays_data : List Entry) :
    String × List Entry :=
  (ledger_path writer_name, merge_essays_data existing essays_data)

/-! Content extraction and the markdown transformer. -/

/-- combine_metadata_and_content from the source, prepending the metadata
header as a text chunk of the markdown document. -/
def combine_metadata_and_content (title subtitle date like_count : String)
    (content : MdDoc) : MdDoc :=
  let metadata :=
    "# " ++ title ++ "\n\n" ++
    (if subtitle ≠ "" then "## " ++ subtitle ++ "\n\n" else "") ++
    "**" ++ date ++ "**\n\n" ++
    "**Likes:** " ++ like_count ++ "\n\n"
  MdChunk.text metadata :: content

/-- extract_post_data from the source.  The error case models the
AttributeError raised when the title selector finds nothing; every other
selector has a fallback.  Returns title, subtitle, like count, date and the
combined markdown document, in the order of the source return. -/
def extract_post_data (h2md : String → MdDoc) (soup : Soup) :
    Except String (String × String × String × String × MdDoc) :=
  match soup.titleText with
  | none => Except.error "AttributeError: NoneType object has no attribute text"
  | some t =>
    let title := pyStripWs t
    let subtitle :=
      match soup.subtitleText with
      | some s => pyStripWs s
      | none => ""
    let date :=
      match soup.dateText with
      | some s => pyStripWs s
      | none => "Date not found"
    let like_count :=
      match soup.likeText with
      | some s => if pyIsDigit (pyStripWs s) then pyStripWs s else "0"
      | none => "0"
    let content :=
      match soup.availableContent with
      | some c => c
      | none => "None"
    let md := h2md content
    Except.ok (title, subtitle, like_count, date,
      combine_metadata_and_content title subtitle date like_count md)

/-- get_url_soup of the direct SubstackScraper: a request, then the paywall
marker check; the skip sentinel is ok none, a raised error wraps the
network failure. -/
def substack_get_url_soup (net : String → Except String Soup) (url : String) :
    Except String (Option Soup) :=
  match net url with
  | Except.error e => Except.error ("Error fetching page: " ++ e)
  | Except.ok soup =>
    if soup.paywallTitle then Except.ok none else Except.ok (some soup)

/-- get_filename_from_url from the source. -/
def get_filename_from_url (url : String) (filetype : String) : String :=
  let ft := if startsList ['.'] filetype.toList then filetype else "." ++ filetype
  (pySplit url "/").getLastD "" ++ ft

/-! The orchestrator scrape_posts. -/

/-- filter_urls from the source: keeps the URLs containing none of the
keywords, in order. -/
def filter_urls (urls : List String) (keywords : List String) : List String :=
  urls.filter (fun url => keywords.all (fun keyword => !(pyIn keyword url)))

/-- Per run session configuration consumed by the scrape loop. -/
structure Cfg where
  writer : String
  mdSaveDir : String
  htmlSaveDir : String
  downloadImages : Bool

/-- Mutable state of the scrape_posts loop: the batch of ledger entries, the
count of counted posts, the progress bar total, the filesystem and the
network log. -/
structure ScrapeState where
  essays : List Entry
  count : Nat
  total : Nat
  fs : FS
  events : List NetEvent

def md_filepath_for (cfg : Cfg) (url : String) : String :=
  cfg.mdSaveDir ++ "/" ++ get_filename_from_url url ".md"

def html_filepath_for (cfg : Cfg) (url : String) : String :=
  cfg.htmlSaveDir ++ "/" ++ get_filename_from_url url ".html"

/-- Body of one iteration of the scrape_posts loop.  The second component
tells whether the iteration reached the count increment at the bottom of the
loop body: the paywall sentinel branch runs continue instead, leaving the
count unchanged and raising the progress bar total.  A raised fetch or
extraction error is caught by the except arm, which logs and falls through
to the count increment. -/
def scrapeVisit (env : Env) (cfg : Cfg) (url : String) (s : ScrapeState) :
    ScrapeState × Bool :=
  let md_filepath := md_filepath_for cfg url
  let html_filepath := html_filepath_for cfg url
  if fsExists s.fs md_filepath then
    ({ s with count := s.count + 1 }, true)
  else
    let s1 : ScrapeState := { s with events := s.events ++ [NetEvent.postFetch url] }
    match env.fetch url with
    | Except.error _ => ({ s1 with count := s1.count + 1 }, true)
    | Except.ok none => ({ s1 with total := s1.total + 1 }, false)
    | Except.ok (some soup) =>
      match extract_post_data env.h2md soup with
      | Except.error _ => ({ s1 with count := s1.count + 1 }, true)
      | Except.ok (title, subtitle, like_count, date, md) =>
        let step :=
          if cfg.downloadImages then
            let post_slug := (pySplit ((pySplit url "/p/").getLastD "") "/").headD ""
            process_markdown_images env md cfg.writer post_slug s1.fs s1.events
          else (md, s1.fs, s1.events)
        let fs2 := save_to_file step.2.1 md_filepath (renderDoc step.1)
        let fs3 := save_to_html_file env.sep fs2 html_filepath
          (env.md2html (renderDoc step.1))
        let entry : Entry :=
          { title := title, subtitle := subtitle, like_count := like_count,
            date := date, file_link := md_filepath, html_link := html_filepath }
        ({ s1 with
            fs := fs3,
            events := step.2.2,
            essays := s1.essays ++ [entry],
            count := s1.count + 1 }, true)

/-- The for loop of scrape_posts: after a counted iteration the break
condition of the source is checked; a continue skips it. -/
def scrapeLoop (env : Env) (cfg : Cfg) (N : Nat) :
    List String → ScrapeState → ScrapeState
  | [], s => s
  | url :: rest, s =>
    let r := scrapeVisit env cfg url s
    if r.2 = true ∧ N ≠ 0 ∧ r.1.count = N then r.1
    else scrapeLoop env cfg N rest r.1

/-- scrape_posts from the source, up to the trailing ledger save and index
generation, which act on the structured ledger modelled by
save_essays_data_to_json. -/
def scrape_posts (env : Env) (cfg : Cfg) (post_urls : List String)
    (num_posts_to_scrape : Nat) (fs : FS) : ScrapeState :=
  let total := if num_posts_to_scrape ≠ 0 then num_posts_to_scrape else post_urls.length
  scrapeLoop env cfg num_posts_to_scrape post_urls
    { essays := [], count := 0, total := total, fs := fs, events := [] }

/-! Session construction of BaseSubstackScraper. -/

structure Session where
  is_single_post : Bool
  base_substack_url : String
  writer_name : String
  post_slug : Option String
  md_save_dir : String
  html_save_dir : String
  image_dir : String
  download_images : Bool

/-- Constructor of BaseSubstackScraper: derives the publication address, the
writer identifier and the per writer save directories; none models the
IndexError extract_main_part can raise. -/
def scraper_init (url md_save_dir html_save_dir : String)
    (download_images : Bool) : Option Session :=
  let is_single := is_post_url url
  let base := get_publication_url url
  match extract_main_part base with
  | none => none
  | some w =>
    some { is_single_post := is_single,
           base_substack_url := base,
           writer_name := w,
           post_slug := if is_single then some (get_post_slug url) else none,
           md_save_dir := md_save_dir ++ "/" ++ w,
           html_save_dir := html_save_dir ++ "/" ++ w,
           image_dir := BASE_IMAGE_DIR ++ "/" ++ w,
           download_images := download_images }

/-! Concrete fixtures used to evaluate the definitions on closed inputs. -/

/-- A gated page: the paywall marker element is present. -/
def soupPaywalled : Soup :=
  { titleText := some "Hidden", subtitleText := none, dateText := none,
    likeText := none, availableContent := none, paywallTitle := true }

/-- An open page with a title and a body but no date marker element. -/
def soupOpen : Soup :=
  { titleText := some "An Open Post", subtitleText := none, dateText := none,
    likeText := some "42", availableContent := some "<div>body</div>",
    paywallTitle := false }

/-- Network oracle answering the paywalled page for alpha and the open page
elsewhere. -/
def netC : String → Except String Soup := fun url =>
  if url = "https://pub.example.com/p/alpha" then Except.ok soupPaywalled
  else Except.ok soupOpen

/-- Concrete environment: the direct fetcher over netC, trivial converters,
a deterministic hash oracle, a png content type probe, image downloads
failing. -/
def envC : Env :=
  { fetch := substack_get_url_soup netC,
    h2md := fun s => [MdChunk.text s],
    md2html := fun s => s,
    headCT := fun _ => "image/png",
    md5hex := fun _ => "0123456789abcdef0123456789abcdef",
    guessExt := fun _ => some ".png",
    getImg := fun _ => Except.error (),
    sep := "/" }

/-- The same environment with the Windows path separator. -/
def envWin : Env := { envC with sep := "\\" }

def cfgC : Cfg :=
  { writer := "pub", mdSaveDir := "substack_md_files/pub",
    htmlSaveDir := "substack_html_pages/pub", downloadImages := false }

def urlsC : List String :=
  ["https://pub.example.com/p/alpha", "https://pub.example.com/p/beta"]

/-- CDN image URL whose final decoded path segment is empty, sending
sanitize_filename into the hash branch. -/
def uCdnEmpty : String := "https://substackcdn.com/image/fetch/a/"

/-- The matched markdown text for uCdnEmpty. -/
def mCdnEmpty : String := "(" ++ uCdnEmpty ++ ")"

/-- Where the hash named image of uCdnEmpty lands under envC. -/
def hashPathC : String :=
  "substack_images/auth/slug/0123456789abcdef0123456789abcdef.png"

/-- A matched CDN image reference whose derived filename is short and
nonempty. -/
def mImgC : String := "(https://substackcdn.com/image/fetch/w_100/img.png)"

/-- A concrete ledger entry. -/
def entC : Entry :=
  { title := "t", subtitle := "", like_count := "0", date := "d",
    file_link := "f.md", html_link := "f.html" }

/-- Save path of any matched image reference, as replace_image computes it:
image root, writer, post slug, sanitized filename. -/
def computed_image_path (env : Env) (author post_slug matched : String) : String :=
  BASE_IMAGE_DIR ++ "/" ++ author ++ "/" ++ post_slug ++ "/" ++
    (sanitize_filename env (pyStripChars ['(', ')'] matched) []).1

/-- The initial loop state scrape_posts builds for urlsC with a maximum of
one post. -/
def initC : ScrapeState :=
  { essays := [], count := 0, total := 1, fs := [], events := [] }

/-- A state whose filesystem already holds the markdown artifact of the
alpha post. -/
def stateC : ScrapeState :=
  { essays := [], count := 0, total := 1,
    fs := [("substack_md_files/pub/alpha.md", "x")], events := [] }

/-! Helper lemmas shared by the claim theorems. -/

theorem aux_sanitize_fst (env : Env) (url : String) (ev : List NetEvent) :
    (sanitize_filename env url ev).1 = (sanitize_filename env url []).1 := by
  by_cases h : 100 < pyLen (sanitize_derived_name url) ∨ sanitize_derived_name url = "" <;>
    simp [sanitize_filename, h]

theorem aux_sanitize_ext_ne (env : Env) (url : String) : sanitize_ext env url ≠ "" := by
  unfold sanitize_ext
  rcases env.guessExt (env.headCT url) with _ | e
  · decide
  · by_cases h : e = "" <;> simp [h]

/-! Claim C2: idempotent artifact writes. -/

/-- Claim C2 as stated is false: save_to_html_file never checks for an
existing destination, so the existing HTML content is overwritten.  Here the
destination holds OLD before the call and does not hold OLD after it. -/
theorem C2_counterexample :
    fsRead (save_to_html_file "/" [("substack_html_pages/w/post.html", "OLD")]
        "substack_html_pages/w/post.html" "NEW") "substack_html_pages/w/post.html" ≠
      some "OLD" := by
  decide

/-- Claim C2 amended: writing the markdown artifact through save_to_file is
a no op when the destination exists, while save_to_html_file writes its
wrapped document unconditionally, whether or not the destination exists. -/
theorem C2_amended_markdown_noop_html_overwrites :
    (∀ (fs : FS) (p c : String), fsExists fs p = true → save_to_file fs p c = fs) ∧
    (∀ (sep : String) (fs : FS) (p c : String),
      save_to_html_file sep fs p c =
        fsWrite fs p (html_page_template
          (pyReplace (os_relpath sep "./assets/css/essay-styles.css" (dirnameStr p))
            "\\" "/") c)) := by
  constructor
  · intro fs p c h
    unfold save_to_file
    simp [h]
  · intro sep fs p c
    rfl

/-- Witness for the hypothesis of the first part of the C2 theorem. -/
theorem C2_witness :
    fsExists [("a/x.md", "x")] "a/x.md" = true ∧
      save_to_file [("a/x.md", "x")] "a/x.md" "y" = [("a/x.md", "x")] := by
  exact ⟨by decide,
    C2_amended_markdown_noop_html_overwrites.1 [("a/x.md", "x")] "a/x.md" "y" (by decide)⟩

/-! Claim C5: ledger merge. -/

/-- Claim C5 as stated is false: a batch holding the same summary twice,
merged into an existing empty ledger, yields a ledger with two fully
identical entries. -/
theorem C5_counterexample :
    merge_essays_data (some []) [entC, entC] = [entC, entC] ∧
      ¬ (merge_essays_data (some []) [entC, entC]).Nodup := by
  decide

/-- Claim C5 amended: the merge keeps the whole existing ledger as a prefix
(so no existing entry is ever removed) and only appends batch entries absent
from the existing ledger; the merged ledger has no two fully identical
entries provided the existing ledger had none and the incoming batch has no
internal duplicates.  Without an existing file the batch is written as
given. -/
theorem C5_amended_merge :
    (∀ (ex batch : List Entry), ex <+: merge_essays_data (some ex) batch) ∧
    (∀ (ex batch : List Entry), ex.Nodup → batch.Nodup →
      (merge_essays_data (some ex) batch).Nodup) ∧
    (∀ batch : List Entry, merge_essays_data none batch = batch) := by
  refine ⟨?_, ?_, ?_⟩
  · intro ex batch
    exact ⟨batch.filter (fun d => decide (d ∉ ex)), rfl⟩
  · intro ex batch hex hbatch
    refine List.Nodup.append hex (hbatch.filter _) ?_
    intro a ha hf
    have := List.mem_filter.mp hf
    have : a ∉ ex := by simpa using this.2
    exact this ha
  · intro batch
    rfl

/-- Witness discharging the Nodup hypotheses of the C5 theorem. -/
theorem C5_witness :
    [entC].Nodup ∧ ([] : List Entry).Nodup ∧
      (merge_essays_data (some [entC]) []).Nodup := by
  exact ⟨by decide, by decide, C5_amended_merge.2.1 [entC] [] (by decide) (by decide)⟩

/-! Claim C7: hash named filenames carry an extension. -/

/-- Claim C7 confirmed: when the derived filename is empty or longer than
100 characters, sanitize_filename returns the md5 hex digest of the URL
followed by the guessed extension, and that extension is never empty. -/
theorem C7_hash_name_has_ext (env : Env) (url : String) (ev : List NetEvent)
    (h : 100 < pyLen (sanitize_derived_name url) ∨ sanitize_derived_name url = "") :
    (sanitize_filename env url ev).1 = env.md5hex url ++ sanitize_ext env url ∧
      sanitize_ext env url ≠ "" := by
  constructor
  · unfold sanitize_filename
    rw [if_pos h]
  · exact aux_sanitize_ext_ne env url

/-- Witness: a CDN URL with an empty final path segment takes the hash
branch and yields the hash name with the probed png extension. -/
theorem C7_witness :
    (100 < pyLen (sanitize_derived_name uCdnEmpty) ∨ sanitize_derived_name uCdnEmpty = "") ∧
      ((sanitize_filename envC uCdnEmpty []).1 =
          envC.md5hex uCdnEmpty ++ sanitize_ext envC uCdnEmpty ∧
        sanitize_ext envC uCdnEmpty ≠ "") := by
  exact ⟨by decide, C7_hash_name_has_ext envC uCdnEmpty [] (by decide)⟩

/-! Claim C8: URL keyword filtering. -/

/-- Claim C8 confirmed: filter_urls keeps exactly the URLs containing none
of the keyword substrings, preserves their order as a sublist of the input,
and on the five URL example drops the two matching about or archive, keeping
the other three in sitemap order. -/
theorem C8_filter_urls :
    (∀ (urls keywords : List String) (u : String),
      u ∈ filter_urls urls keywords ↔
        u ∈ urls ∧ keywords.all (fun keyword => !(pyIn keyword u)) = true) ∧
    (∀ urls keywords : List String, List.Sublist (filter_urls urls keywords) urls) ∧
    filter_urls
      ["https://x.com/p/alpha", "https://x.com/about/post", "https://x.com/p/beta",
       "https://x.com/archive/2020", "https://x.com/p/gamma"]
      ["about", "archive", "podcast"] =
      ["https://x.com/p/alpha", "https://x.com/p/beta", "https://x.com/p/gamma"] := by
  refine ⟨?_, ?_, by decide⟩
  · intro urls keywords u
    unfold filter_urls
    exact List.mem_filter
  · intro urls keywords
    exact List.filter_sublist urls

/-! Claim C9: extraction raises exactly on a missing title. -/

/-- Claim C9 confirmed: extract_post_data fails exactly when the title
selector finds nothing, and on a document with a title but no date marker it
succeeds with the fixed placeholder date. -/
theorem C9_title_only_hard_requirement :
    (∀ (h2md : String → MdDoc) (soup : Soup),
      (∃ e, extract_post_data h2md soup = Except.error e) ↔ soup.titleText = none) ∧
    (∀ (h2md : String → MdDoc) (soup : Soup) (t : String),
      soup.titleText = some t → soup.dateText = none →
      ∃ title subtitle like md, extract_post_data h2md soup =
        Except.ok (title, subtitle, like, "Date not found", md)) := by
  constructor
  · intro h2md soup
    rcases h : soup.titleText with _ | t <;> simp [extract_post_data, h]
  · intro h2md soup t h1 h2
    simp only [extract_post_data, h1, h2]
    exact ⟨_, _, _, _, rfl⟩

/-! Claims C4 and C6: image localization. -/

theorem aux_replace_fst (env : Env) (author slug m : String) (fs : FS)
    (ev : List NetEvent) :
    (replace_image env author slug m fs ev).1 =
      "(" ++ os_relpath env.sep (computed_image_path env author slug m)
        (BASE_MD_DIR ++ "/" ++ author) ++ ")" := by
  have h : (replace_image env author slug m fs ev).1 =
      "(" ++ os_relpath env.sep (BASE_IMAGE_DIR ++ "/" ++ author ++ "/" ++ slug ++ "/" ++
        (sanitize_filename env (pyStripChars ['(', ')'] m) ev).1)
        (BASE_MD_DIR ++ "/" ++ author) ++ ")" := rfl
  rw [h, aux_sanitize_fst]
  rfl

theorem aux_replace_exists_noop (env : Env) (author slug m : String) (fs : FS)
    (ev : List NetEvent)
    (hname : ¬ (100 < pyLen (sanitize_derived_name (pyStripChars ['(', ')'] m)) ∨
      sanitize_derived_name (pyStripChars ['(', ')'] m) = ""))
    (hex : fsExists fs (computed_image_path env author slug m) = true) :
    replace_image env author slug m fs ev =
      ("(" ++ os_relpath env.sep (computed_image_path env author slug m)
        (BASE_MD_DIR ++ "/" ++ author) ++ ")", fs, ev) := by
  simp only [computed_image_path, sanitize_filename, if_neg hname] at hex ⊢
  simp only [replace_image, sanitize_filename, if_neg hname, hex]
  simp

theorem aux_process_exists_noop (env : Env) (author slug : String) (doc : MdDoc)
    (fs : FS) (ev : List NetEvent)
    (h : ∀ m, MdChunk.image m ∈ doc →
      ¬ (100 < pyLen (sanitize_derived_name (pyStripChars ['(', ')'] m)) ∨
        sanitize_derived_name (pyStripChars ['(', ')'] m) = "") ∧
      fsExists fs (computed_image_path env author slug m) = true) :
    process_markdown_images env doc author slug fs ev =
      (doc.map (fun ch => match ch with
        | MdChunk.text s => MdChunk.text s
        | MdChunk.image m => MdChunk.text ((replace_image env author slug m fs ev).1)),
       fs, ev) := by
  induction doc with
  | nil => rfl
  | cons ch rest ih =>
    rcases ch with s | m
    · have hr := ih (fun m hm => h m (List.mem_cons_of_mem _ hm))
      simp only [process_markdown_images, hr, List.map_cons]
    · have hm := h m (List.mem_cons_self _ _)
      have hrep := aux_replace_exists_noop env author slug m fs ev hm.1 hm.2
      have hr := ih (fun m2 hm2 => h m2 (List.mem_cons_of_mem _ hm2))
      simp only [process_markdown_images, hrep, hr, List.map_cons]

/-- Claim C4 as stated is false: for a CDN URL whose derived filename is
empty, sanitize_filename issues the requests.head probe before the existence
check, so a second localization pass performs a network request even though
the target file already exists at its computed path. -/
theorem C4_counterexample :
    fsExists [(hashPathC, "img")] (computed_image_path envC "auth" "slug" mCdnEmpty) = true ∧
      (replace_image envC "auth" "slug" mCdnEmpty [(hashPathC, "img")] []).2.2 =
        [NetEvent.headProbe uCdnEmpty] := by
  decide

/-- Claim C4 amended: the rewritten path never depends on the filesystem or
the prior request log, so a second pass rewrites to the same relative path
as the first; when the target file exists the image download is always
skipped, and when additionally the sanitized name derives directly from the
URL (nonempty, at most 100 characters) the pass performs no network request
at all — URLs falling into the hash branch still issue a head probe. -/
theorem C4_amended_second_pass :
    (∀ (env : Env) (author slug m : String) (fs : FS) (ev : List NetEvent)
        (fs2 : FS) (ev2 : List NetEvent),
      (replace_image env author slug m fs ev).1 =
        (replace_image env author slug m fs2 ev2).1) ∧
    (∀ (env : Env) (author slug m : String) (fs : FS) (ev : List NetEvent),
      ¬ (100 < pyLen (sanitize_derived_name (pyStripChars ['(', ')'] m)) ∨
        sanitize_derived_name (pyStripChars ['(', ')'] m) = "") →
      fsExists fs (computed_image_path env author slug m) = true →
      replace_image env author slug m fs ev =
        ("(" ++ os_relpath env.sep (computed_image_path env author slug m)
          (BASE_MD_DIR ++ "/" ++ author) ++ ")", fs, ev)) ∧
    (∀ (env : Env) (author slug : String) (doc : MdDoc) (fs : FS) (ev : List NetEvent),
      (∀ m, MdChunk.image m ∈ doc →
        ¬ (100 < pyLen (sanitize_derived_name (pyStripChars ['(', ')'] m)) ∨
          sanitize_derived_name (pyStripChars ['(', ')'] m) = "") ∧
        fsExists fs (computed_image_path env author slug m) = true) →
      process_markdown_images env doc author slug fs ev =
        (doc.map (fun ch => match ch with
          | MdChunk.text s => MdChunk.text s
          | MdChunk.image m => MdChunk.text ((replace_image env author slug m fs ev).1)),
         fs, ev)) := by
  refine ⟨?_, aux_replace_exists_noop, aux_process_exists_noop⟩
  intro env author slug m fs ev fs2 ev2
  rw [aux_replace_fst, aux_replace_fst]

/-- Witness for the C4 theorem: a short named CDN image already downloaded
is rewritten without touching the filesystem or the network log. -/
theorem C4_witness :
    (¬ (100 < pyLen (sanitize_derived_name (pyStripChars ['(', ')'] mImgC)) ∨
      sanitize_derived_name (pyStripChars ['(', ')'] mImgC) = "")) ∧
    fsExists [("substack_images/auth/slug/img.png", "img")]
        (computed_image_path envC "auth" "slug" mImgC) = true ∧
    replace_image envC "auth" "slug" mImgC
        [("substack_images/auth/slug/img.png", "img")] [] =
      ("(" ++ os_relpath envC.sep (computed_image_path envC "auth" "slug" mImgC)
        (BASE_MD_DIR ++ "/" ++ "auth") ++ ")",
       [("substack_images/auth/slug/img.png", "img")], []) := by
  exact ⟨by decide, by decide,
    C4_amended_second_pass.2.1 envC "auth" "slug" mImgC
      [("substack_images/auth/slug/img.png", "img")] [] (by decide) (by decide)⟩

/-- Claim C6 as stated is false on its normalization part: with the Windows
separator the rewritten reference keeps backslashes, no normalization to
forward slashes happens (the download also fails here and the reference is
still rewritten, with no file created). -/
theorem C6_counterexample :
    (replace_image envWin "a" "slug" mImgC [] []).1 =
        "(..\\..\\substack_images\\a\\slug\\img.png)" ∧
      (replace_image envWin "a" "slug" mImgC [] []).1 ≠
        "(../../substack_images/a/slug/img.png)" ∧
      (replace_image envWin "a" "slug" mImgC [] []).2.1 = [] := by
  decide

/-- Claim C6 amended: every matched reference is replaced by the relative
path from the markdown save directory rendered with the platform separator
verbatim (no normalization; forward slashes only when os.sep is a forward
slash), and the replacement text is the same whatever the image download
oracle answers, so it is made even when the download fails. -/
theorem C6_rewrite_native_sep :
    (∀ (env : Env) (g : String → Except Unit (Nat × String)) (author slug m : String)
        (fs : FS) (ev : List NetEvent),
      (replace_image { env with getImg := g } author slug m fs ev).1 =
        (replace_image env author slug m fs ev).1) ∧
    (∀ (env : Env) (author slug m : String) (fs : FS) (ev : List NetEvent),
      (replace_image env author slug m fs ev).1 =
        "(" ++ os_relpath env.sep (computed_image_path env author slug m)
          (BASE_MD_DIR ++ "/" ++ author) ++ ")") := by
  refine ⟨?_, aux_replace_fst⟩
  intro env g author slug m fs ev
  rw [aux_replace_fst, aux_replace_fst]
  rfl

/-! Claim C10: derived writer identifier and the paths it names. -/

/-- Claim C10 confirmed: for a publication URL whose host splits into at
least two dot separated labels, the writer identifier is the first label,
or the second when the first is www, and it names the markdown, HTML and
image subdirectories and the per writer ledger file. -/
theorem C10_writer_identifier :
    ∀ (url mdroot htmlroot : String) (di : Bool) (l0 l1 : String) (rest : List String),
      pySplit (netloc (get_publication_url url)) "." = l0 :: l1 :: rest →
      extract_main_part (get_publication_url url) =
          some (if l0 = "www" then l1 else l0) ∧
      ∃ sess, scraper_init url mdroot htmlroot di = some sess ∧
        sess.writer_name = (if l0 = "www" then l1 else l0) ∧
        sess.md_save_dir = mdroot ++ "/" ++ sess.writer_name ∧
        sess.html_save_dir = htmlroot ++ "/" ++ sess.writer_name ∧
        sess.image_dir = BASE_IMAGE_DIR ++ "/" ++ sess.writer_name ∧
        ledger_path sess.writer_name = JSON_DATA_DIR ++ "/" ++ sess.writer_name ++ ".json" := by
  intro url mdroot htmlroot di l0 l1 rest h
  have hemp : extract_main_part (get_publication_url url) =
      some (if l0 = "www" then l1 else l0) := by
    simp only [extract_main_part, h]
    by_cases h0 : l0 = "www" <;> simp [h0]
  refine ⟨hemp, ?_⟩
  simp only [scraper_init, hemp]
  exact ⟨_, rfl, rfl, rfl, rfl, rfl, rfl⟩

/-- Witness: the default publication address derives thefitzwilliam, the
second label past www, and the session names every path with it. -/
theorem C10_witness :
    pySplit (netloc (get_publication_url "https://www.thefitzwilliam.com/")) "." =
        "www" :: "thefitzwilliam" :: ["com"] ∧
      extract_main_part (get_publication_url "https://www.thefitzwilliam.com/") =
        some (if "www" = "www" then "thefitzwilliam" else "www") ∧
      ∃ sess, scraper_init "https://www.thefitzwilliam.com/" "substack_md_files"
          "substack_html_pages" false = some sess ∧
        sess.writer_name = (if "www" = "www" then "thefitzwilliam" else "www") ∧
        sess.md_save_dir = "substack_md_files" ++ "/" ++ sess.writer_name ∧
        sess.html_save_dir = "substack_html_pages" ++ "/" ++ sess.writer_name ∧
        sess.image_dir = BASE_IMAGE_DIR ++ "/" ++ sess.writer_name ∧
        ledger_path sess.writer_name = JSON_DATA_DIR ++ "/" ++ sess.writer_name ++ ".json" := by
  exact ⟨by decide,
    C10_writer_identifier "https://www.thefitzwilliam.com/" "substack_md_files"
      "substack_html_pages" false "www" "thefitzwilliam" ["com"] (by decide)⟩

/-- Witness: a document with a title, a numeric like label and no date
marker extracts without error and reports the placeholder date. -/
theorem C9_witness :
    soupOpen.titleText = some "An Open Post" ∧ soupOpen.dateText = none ∧
      ∃ title subtitle like md, extract_post_data envC.h2md soupOpen =
        Except.ok (title, subtitle, like, "Date not found", md) := by
  exact ⟨by decide, by decide,
    C9_title_only_hard_requirement.2 envC.h2md soupOpen "An Open Post" (by decide) (by decide)⟩

/-! Claims C1 and C3: the orchestrator loop.  The lemmas below track how one
loop iteration can change the filesystem and the network log. -/

theorem aux_fsExists_write (fs : FS) (p c q : String) (h : fsExists fs q = true) :
    fsExists (fsWrite fs p c) q = true := by
  simp only [fsExists, fsWrite, List.any_cons, Bool.or_eq_true]
  exact Or.inr h

theorem aux_save_file_mono (fs : FS) (p c q : String) (h : fsExists fs q = true) :
    fsExists (save_to_file fs p c) q = true := by
  unfold save_to_file
  split
  · exact h
  · exact aux_fsExists_write fs p c q h

theorem aux_save_html_mono (sep : String) (fs : FS) (p c q : String)
    (h : fsExists fs q = true) :
    fsExists (save_to_html_file sep fs p c) q = true :=
  aux_fsExists_write fs p _ q h

theorem aux_download_mono (env : Env) (url p q : String) (fs : FS)
    (ev : List NetEvent) (h : fsExists fs q = true) :
    fsExists (download_image env url p fs ev).2.1 q = true := by
  unfold download_image
  dsimp only
  split
  · exact h
  · split
    · exact aux_fsExists_write fs p _ q h
    · exact h

theorem aux_replace_mono (env : Env) (author slug m q : String) (fs : FS)
    (ev : List NetEvent) (h : fsExists fs q = true) :
    fsExists (replace_image env author slug m fs ev).2.1 q = true := by
  unfold replace_image
  dsimp only
  split
  · exact h
  · exact aux_download_mono env _ _ q fs _ h

theorem aux_process_mono (env : Env) (author post_slug q : String) (doc : MdDoc)
    (fs : FS) (ev : List NetEvent) (h : fsExists fs q = true) :
    fsExists (process_markdown_images env doc author post_slug fs ev).2.1 q = true := by
  induction doc generalizing fs ev with
  | nil => exact h
  | cons ch rest ih =>
    rcases ch with s | m
    · simp only [process_markdown_images]
      exact ih fs ev h
    · simp only [process_markdown_images]
      exact ih _ _ (aux_replace_mono env author post_slug m q fs ev h)

theorem aux_visit_fs_mono (env : Env) (cfg : Cfg) (url q : String) (s : ScrapeState)
    (h : fsExists s.fs q = true) :
    fsExists (scrapeVisit env cfg url s).1.fs q = true := by
  unfold scrapeVisit
  dsimp only
  split
  · exact h
  · split
    · exact h
    · exact h
    · split
      · exact h
      · refine aux_save_html_mono _ _ _ _ _ (aux_save_file_mono _ _ _ _ ?_)
        split
        · exact aux_process_mono env _ _ q _ _ _ h
        · exact h

theorem aux_sanitize_events (env : Env) (url : String) (ev : List NetEvent) :
    ∃ δ, (sanitize_filename env url ev).2 = ev ++ δ ∧
      ∀ u, NetEvent.postFetch u ∉ δ := by
  unfold sanitize_filename
  dsimp only
  split
  · refine ⟨[NetEvent.headProbe url], rfl, ?_⟩
    intro u hu
    simp at hu
  · refine ⟨[], by simp, ?_⟩
    intro u hu
    simp at hu

theorem aux_download_events (env : Env) (url p : String) (fs : FS)
    (ev : List NetEvent) :
    (download_image env url p fs ev).2.2 = ev ++ [NetEvent.imageGet url] := by
  unfold download_image
  dsimp only
  split
  · rfl
  · split <;> rfl

theorem aux_replace_events (env : Env) (author slug m : String) (fs : FS)
    (ev : List NetEvent) :
    ∃ δ, (replace_image env author slug m fs ev).2.2 = ev ++ δ ∧
      ∀ u, NetEvent.postFetch u ∉ δ := by
  obtain ⟨δ1, h1, hn1⟩ := aux_sanitize_events env (pyStripChars ['(', ')'] m) ev
  unfold replace_image
  dsimp only
  split
  · exact ⟨δ1, h1, hn1⟩
  · refine ⟨δ1 ++ [NetEvent.imageGet (pyStripChars ['(', ')'] m)], ?_, ?_⟩
    · rw [aux_download_events, h1, List.append_assoc]
    · intro u hu
      rcases List.mem_append.mp hu with h' | h'
      · exact hn1 u h'
      · simp at h'

theorem aux_process_events (env : Env) (author post_slug : String) (doc : MdDoc)
    (fs : FS) (ev : List NetEvent) :
    ∃ δ, (process_markdown_images env doc author post_slug fs ev).2.2 = ev ++ δ ∧
      ∀ u, NetEvent.postFetch u ∉ δ := by
  induction doc generalizing fs ev with
  | nil =>
    refine ⟨[], by simp [process_markdown_images], ?_⟩
    intro u hu
    simp at hu
  | cons ch rest ih =>
    rcases ch with s | m
    · obtain ⟨δ, hδ, hn⟩ := ih fs ev
      exact ⟨δ, by simpa only [process_markdown_images] using hδ, hn⟩
    · obtain ⟨δ1, h1, hn1⟩ := aux_replace_events env author post_slug m fs ev
      obtain ⟨δ2, h2, hn2⟩ := ih (replace_image env author post_slug m fs ev).2.1
        (replace_image env author post_slug m fs ev).2.2
      refine ⟨δ1 ++ δ2, ?_, ?_⟩
      · simp only [process_markdown_images]
        rw [h2, h1, List.append_assoc]
      · intro u hu
        rcases List.mem_append.mp hu with h' | h'
        exacts [hn1 u h', hn2 u h']

theorem aux_visit_events (env : Env) (cfg : Cfg) (url : String) (s : ScrapeState) :
    ∃ δ, (scrapeVisit env cfg url s).1.events = s.events ++ δ ∧
      ∀ u, NetEvent.postFetch u ∈ δ →
        u = url ∧ fsExists s.fs (md_filepath_for cfg url) = false := by
  by_cases hc : fsExists s.fs (md_filepath_for cfg url) = true
  · refine ⟨[], by simp [scrapeVisit, hc], ?_⟩
    intro u hu
    simp at hu
  · have hfalse : fsExists s.fs (md_filepath_for cfg url) = false := by
      simpa using hc
    rcases hf : env.fetch url with e | os
    · refine ⟨[NetEvent.postFetch url], by simp [scrapeVisit, hfalse, hf], ?_⟩
      intro u hu
      simp at hu
      exact ⟨hu, hfalse⟩
    · rcases os with _ | soup
      · refine ⟨[NetEvent.postFetch url], by simp [scrapeVisit, hfalse, hf], ?_⟩
        intro u hu
        simp at hu
        exact ⟨hu, hfalse⟩
      · rcases hx : extract_post_data env.h2md soup with e | tup
        · refine ⟨[NetEvent.postFetch url], by simp [scrapeVisit, hfalse, hf, hx], ?_⟩
          intro u hu
          simp at hu
          exact ⟨hu, hfalse⟩
        · obtain ⟨title, subtitle, like, date, md⟩ := tup
          by_cases hd : cfg.downloadImages = true
          · obtain ⟨δp, hp, hnp⟩ := aux_process_events env cfg.writer
              ((pySplit ((pySplit url "/p/").getLast?.getD "") "/").head?.getD "") md s.fs
              (s.events ++ [NetEvent.postFetch url])
            refine ⟨[NetEvent.postFetch url] ++ δp, ?_, ?_⟩
            · simp [scrapeVisit, hfalse, hf, hx, hd]
              rw [hp]
              simp
            · intro u hu
              rcases List.mem_append.mp hu with h' | h'
              · simp at h'
                exact ⟨h', hfalse⟩
              · exact absurd h' (hnp u)
          · refine ⟨[NetEvent.postFetch url], ?_, ?_⟩
            · simp [scrapeVisit, hfalse, hf, hx, hd]
            · intro u hu
              simp at hu
              exact ⟨hu, hfalse⟩

theorem aux_visit_post_iff (env : Env) (cfg : Cfg) (u url : String) (s : ScrapeState)
    (h : fsExists s.fs (md_filepath_for cfg u) = true) :
    NetEvent.postFetch u ∈ (scrapeVisit env cfg url s).1.events ↔
      NetEvent.postFetch u ∈ s.events := by
  obtain ⟨δ, hδ, hpost⟩ := aux_visit_events env cfg url s
  rw [hδ]
  constructor
  · intro hm
    rcases List.mem_append.mp hm with h' | h'
    · exact h'
    · obtain ⟨he, hfb⟩ := hpost u h'
      subst he
      rw [h] at hfb
      exact Bool.noConfusion hfb
  · intro hm
    exact List.mem_append_left δ hm

/-- Claim C1 as stated is false: with a requested maximum of one post and
the first URL paywalled, the run does not stop after the first URL; the skip
sentinel leaves the count at zero (the progress total is raised instead), so
the second URL is fetched as well and supplies the single counted post. -/
theorem C1_counterexample :
    envC.fetch "https://pub.example.com/p/alpha" = Except.ok none ∧
      (scrape_posts envC cfgC urlsC 1 []).events =
        [NetEvent.postFetch "https://pub.example.com/p/alpha",
         NetEvent.postFetch "https://pub.example.com/p/beta"] ∧
      (scrape_posts envC cfgC urlsC 1 []).count = 1 ∧
      (scrape_posts envC cfgC urlsC 1 []).total = 2 := by
  exact ⟨rfl, by decide, by decide, by decide⟩

/-- Claim C1 amended: when the fetcher returns the skip sentinel the
orchestrator skips the post without advancing the count toward the
requested maximum — it raises the progress bar total by one and moves on
without evaluating the break condition — so a run with maximum N keeps
iterating until N non skipped posts are processed or the finite URL list is
exhausted; a raised per post error, by contrast, does advance the count. -/
theorem C1_amended_paywall_skip :
    (∀ (env : Env) (cfg : Cfg) (N : Nat) (url : String) (rest : List String)
        (s : ScrapeState),
      fsExists s.fs (md_filepath_for cfg url) = false →
      env.fetch url = Except.ok none →
      scrapeLoop env cfg N (url :: rest) s =
        scrapeLoop env cfg N rest
          { s with total := s.total + 1,
                   events := s.events ++ [NetEvent.postFetch url] }) ∧
    (∀ (env : Env) (cfg : Cfg) (url : String) (s : ScrapeState) (e : String),
      fsExists s.fs (md_filepath_for cfg url) = false →
      env.fetch url = Except.error e →
      scrapeVisit env cfg url s =
        ({ s with count := s.count + 1,
                  events := s.events ++ [NetEvent.postFetch url] }, true)) := by
  constructor
  · intro env cfg N url rest s h hf
    have hv : scrapeVisit env cfg url s =
        ({ s with total := s.total + 1,
                  events := s.events ++ [NetEvent.postFetch url] }, false) := by
      simp [scrapeVisit, h, hf]
    simp only [scrapeLoop, hv]
    simp
  · intro env cfg url s e h hf
    simp [scrapeVisit, h, hf]

/-- Witness for the C1 theorem on the concrete paywalled run: the alpha URL
has no markdown artifact yet and fetches the skip sentinel, and the loop
equation of the theorem applies to it. -/
theorem C1_witness :
    fsExists initC.fs (md_filepath_for cfgC "https://pub.example.com/p/alpha") = false ∧
      envC.fetch "https://pub.example.com/p/alpha" = Except.ok none ∧
      scrapeLoop envC cfgC 1
          ("https://pub.example.com/p/alpha" :: ["https://pub.example.com/p/beta"]) initC =
        scrapeLoop envC cfgC 1 ["https://pub.example.com/p/beta"]
          { initC with total := initC.total + 1,
                       events := initC.events ++
                         [NetEvent.postFetch "https://pub.example.com/p/alpha"] } := by
  exact ⟨by decide, rfl,
    C1_amended_paywall_skip.1 envC cfgC 1 "https://pub.example.com/p/alpha"
      ["https://pub.example.com/p/beta"] initC (by decide) rfl⟩

/-- Claim C3 confirmed: when the markdown artifact of a URL already exists,
one loop iteration only advances the count — no fetch, no extraction, no
write, no ledger entry — and over a whole run no fetch event is ever issued
for a URL whose markdown artifact existed at the start. -/
theorem C3_existing_markdown_skips_fetch :
    (∀ (env : Env) (cfg : Cfg) (url : String) (s : ScrapeState),
      fsExists s.fs (md_filepath_for cfg url) = true →
      scrapeVisit env cfg url s = ({ s with count := s.count + 1 }, true)) ∧
    (∀ (env : Env) (cfg : Cfg) (N : Nat) (u : String) (urls : List String)
        (s : ScrapeState),
      fsExists s.fs (md_filepath_for cfg u) = true →
      (NetEvent.postFetch u ∈ (scrapeLoop env cfg N urls s).events ↔
        NetEvent.postFetch u ∈ s.events)) := by
  constructor
  · intro env cfg url s h
    simp [scrapeVisit, h]
  · intro env cfg N u urls
    induction urls with
    | nil =>
      intro s h
      exact Iff.rfl
    | cons url rest ih =>
      intro s h
      simp only [scrapeLoop]
      split
      · exact aux_visit_post_iff env cfg u url s h
      · exact (ih (scrapeVisit env cfg url s).1
            (aux_visit_fs_mono env cfg url (md_filepath_for cfg u) s h)).trans
          (aux_visit_post_iff env cfg u url s h)

/-- Witness for the C3 theorem: with the alpha markdown artifact on disk the
iteration only advances the count and a run over the alpha URL issues no
fetch event. -/
theorem C3_witness :
    fsExists stateC.fs (md_filepath_for cfgC "https://pub.example.com/p/alpha") = true ∧
      scrapeVisit envC cfgC "https://pub.example.com/p/alpha" stateC =
        ({ stateC with count := stateC.count + 1 }, true) ∧
      (NetEvent.postFetch "https://pub.example.com/p/alpha" ∈
          (scrapeLoop envC cfgC 0 ["https://pub.example.com/p/alpha"] stateC).events ↔
        NetEvent.postFetch "https://pub.example.com/p/alpha" ∈ stateC.events) := by
  exact ⟨by decide,
    C3_existing_markdown_skips_fetch.1 envC cfgC "https://pub.example.com/p/alpha"
      stateC (by decide),
    C3_existing_markdown_skips_fetch.2 envC cfgC 0 "https://pub.example.com/p/alpha"
      ["https://pub.example.com/p/alpha"] stateC (by decide)⟩

end Substack
